import Mathlib

/-!
Verification of the recipe execution engine of an Airtable change-detector.

The development shallowly embeds `app.py`:

* `Automation` and `Automation.init` embed the `Automation` class and its
  `__init__` (which accepts every argument without validation).
* `processRecord`, `runCycleRecords`, `execute_recipe_loop` and
  `execute_recipe` embed the body of `execute_recipe` (lines 112-156):
  one record, one fetched snapshot, the `while True` polling loop, and the
  loop entry that computes `last_checked_time`.
* Timestamps are modelled as integers (naive UTC instants); the stdlib
  parser `datetime.fromisoformat` composed with `.replace(tzinfo=None)` is
  an external collaborator, passed in as `fromiso : String -> Option Int`
  (`none` models the `ValueError` it raises on an unparseable string).
* `requests.post` is the external Notifier, passed in as
  `post : Option String -> Record -> Except Unit Int` (`.error` models a
  raised request exception, `.ok code` the returned status code).
* Exceptions propagate: every evaluation function returns `Except PyError`,
  and an error at any point ends the run (`RunOutcome.crashed`), exactly as
  an uncaught Python exception ends the `execute_recipe` thread.
* The writes to `recipe.is_running` performed by other threads are modelled
  by the per-cycle input flag `stopRequested`: the value the single read at
  line 152 (`if not recipe.is_running`) observes at the end of that cycle.
* `start_all`, `LogEvent`, `Flags`/`applyFlagOp` and `statusLabel` embed
  `RecipeManager.start_all`, its log messages, the writes to the
  `is_running` / `is_thread_running` flags, and `log_status`.
-/

/-- A value stored in a record's field mapping: either a Python `str`
or any non-string JSON value (numbers, booleans, ...), which the
`isinstance(field_value, str)` check at line 145 distinguishes.  The
payload of `num` also determines Python truthiness for line 135. -/
inductive Value where
  | str (s : String)
  | num (n : Int)
deriving DecidableEq, Repr

/-- An Airtable record as returned by `airtable.get_all()`: a stable
identifier and a field mapping. -/
structure Record where
  id : String
  fields : List (String × Value)
deriving DecidableEq, Repr

/-- `record['fields'].get(key)` / `record['fields'][key]`: lookup in the
field mapping. -/
def getField (fields : List (String × Value)) (key : String) : Option Value :=
  (fields.find? (fun p => p.1 == key)).map (fun p => p.2)

/-- The `Automation` class: one recipe's configuration.  All constructor
arguments default to `None` in the source, hence every field is an
`Option`.  `last_execution_time` holds a datetime, modelled as `Int`. -/
structure Automation where
  trigger : Option String
  action : Option String
  webhook_url : Option String
  base_key : Option String
  table_name : Option String
  api_key : Option String
  field_name : Option String
  text_to_find : Option String
  name : Option String
  last_execution_time : Option Int
deriving DecidableEq, Repr

/-- `Automation.__init__` (lines 29-39): stores every argument unchecked
and sets `last_execution_time` to `None`.  It is total: no trigger or
action tag is validated and no exception is ever raised. -/
def Automation.init (trigger action webhook_url base_key table_name
    api_key field_name text_to_find name : Option String) : Automation :=
  { trigger := trigger, action := action, webhook_url := webhook_url,
    base_key := base_key, table_name := table_name, api_key := api_key,
    field_name := field_name, text_to_find := text_to_find, name := name,
    last_execution_time := none }

/-- The uncaught Python exceptions that can escape the loop body. -/
inductive PyError where
  /-- `requests.post` raised (network failure). -/
  | requestError
  /-- `airtable.get_all()` raised (source unavailable). -/
  | airtableError
  /-- `datetime.fromisoformat` on a non-string, or `None in str`. -/
  | typeError
  /-- `datetime.fromisoformat` on an unparseable string. -/
  | valueError
deriving DecidableEq, Repr

/-- `recipe.field_name in record['fields']` (line 143): dictionary-key
membership; `None` is never among the (string) keys. -/
def fieldNameInFields : Option String → List (String × Value) → Bool
  | none, _ => false
  | some f, fields => (getField fields f).isSome

/-- One iteration of the `for record in records` body (lines 126-149).
Returns the list of records dispatched by this iteration (empty or a
singleton) and the updated `processed_records` set, or the uncaught
exception.  `fromiso` is `datetime.fromisoformat` + `.replace(tzinfo=None)`;
`post` is `requests.post` inside `send_webhook`. -/
def processRecord (fromiso : String → Option Int)
    (post : Option String → Record → Except Unit Int)
    (recipe : Automation) (last_checked_time : Int)
    (processed : List String) (record : Record) :
    Except PyError (List Record × List String) :=
  let record_id := record.id
  -- line 129: record_time_str = record['fields'].get('Last Modified')
  let record_time_str := getField record.fields "Last Modified"
  -- lines 131-133: skip records already processed
  if record_id ∈ processed then
    .ok ([], processed)
  else
    -- line 135: `if record_time_str:` (Python truthiness; None and "" are falsy)
    match record_time_str with
    | none => .ok ([], processed.insert record_id)
    | some (.num n) =>
      if n = 0 then .ok ([], processed.insert record_id)
      else .error .typeError   -- fromisoformat requires a string
    | some (.str s) =>
      if s = "" then .ok ([], processed.insert record_id)
      else
        -- line 136: record_time = datetime.fromisoformat(...).replace(tzinfo=None)
        match fromiso s with
        | none => .error .valueError
        | some record_time =>
          -- line 139
          if recipe.trigger = some "airtable_record_updated" ∧
              record_time > last_checked_time then
            match post recipe.webhook_url record with
            | .error _ => .error .requestError
            | .ok _ => .ok ([record], processed.insert record_id)
          -- line 143
          else if recipe.trigger = some "find_record" ∧
              fieldNameInFields recipe.field_name record.fields then
            match recipe.field_name.bind (fun f => getField record.fields f) with
            | some (.str field_value) =>
              -- line 145: isinstance(...) and recipe.text_to_find in field_value
              match recipe.text_to_find with
              | none => .error .typeError   -- `None in str` raises TypeError
              | some t =>
                if t.toList <:+: field_value.toList then
                  match post recipe.webhook_url record with
                  | .error _ => .error .requestError
                  | .ok _ => .ok ([record], processed.insert record_id)
                else .ok ([], processed.insert record_id)
            | _ => .ok ([], processed.insert record_id)
          else .ok ([], processed.insert record_id)

/-- The whole `for record in records` loop over one fetched snapshot
(lines 126-149): records are evaluated strictly in the order returned,
dispatches are collected in that order, and the first uncaught exception
aborts the remainder of the snapshot. -/
def runCycleRecords (fromiso : String → Option Int)
    (post : Option String → Record → Except Unit Int)
    (recipe : Automation) (last_checked_time : Int) :
    List Record → List String → Except PyError (List Record × List String)
  | [], processed => .ok ([], processed)
  | r :: rs, processed =>
    match processRecord fromiso post recipe last_checked_time processed r with
    | .error e => .error e
    | .ok (d, processed') =>
      match runCycleRecords fromiso post recipe last_checked_time rs processed' with
      | .error e => .error e
      | .ok (d', processed'') => .ok (d ++ d', processed'')

/-- The mutable state of one run of `execute_recipe`: the
`processed_records` set (modelled as a duplicate-free list), the
`last_checked_time` local variable, and the `recipe.last_execution_time`
attribute rewritten at line 151. -/
structure LoopState where
  processed_records : List String
  last_checked_time : Int
  last_execution_time : Option Int
deriving DecidableEq, Repr

/-- The environment one cycle of the `while True` loop runs in:
the outcome of `airtable.get_all()` (line 123; `.error` models a raised
exception) and the value of `recipe.is_running` that the check at
line 152 observes at the end of this cycle (`stopRequested = true` means
some other thread set it to `False` during the cycle). -/
structure CycleInput where
  fetch : Except Unit (List Record)
  stopRequested : Bool
deriving Repr

/-- What one completed cycle did: which records it dispatched webhooks
for, and whether it then executed the `time.sleep(10)` at line 154. -/
structure CycleOutput where
  dispatches : List Record
  slept : Bool
deriving DecidableEq, Repr

/-- How a run of `execute_recipe` ends (or is interrupted by exhausting
the supplied cycle inputs): `stopped` via the `break` at line 153,
`crashed` by an uncaught exception, or still `running` when the inputs
run out. -/
inductive RunOutcome where
  | running (st : LoopState) (trace : List CycleOutput)
  | stopped (st : LoopState) (trace : List CycleOutput)
  | crashed (e : PyError) (st : LoopState) (trace : List CycleOutput)
deriving DecidableEq, Repr

/-- The loop state a run ends in. -/
def RunOutcome.state : RunOutcome → LoopState
  | .running st _ => st
  | .stopped st _ => st
  | .crashed _ st _ => st

/-- The per-cycle trace of a run. -/
def RunOutcome.trace : RunOutcome → List CycleOutput
  | .running _ tr => tr
  | .stopped _ tr => tr
  | .crashed _ _ tr => tr

/-- The dispatched records of each completed cycle, in order. -/
def RunOutcome.dispatchTrace (o : RunOutcome) : List (List Record) :=
  o.trace.map (fun c => c.dispatches)

/-- The `while True` loop of `execute_recipe` (lines 121-154), driven by
one `CycleInput` per cycle: fetch (a raised exception propagates and the
run crashes), evaluate every record of the snapshot, write
`recipe.last_execution_time = last_checked_time` (line 151), then either
`break` (line 153) when a stop was requested, or sleep and continue. -/
def execute_recipe_loop (fromiso : String → Option Int)
    (post : Option String → Record → Except Unit Int)
    (recipe : Automation) (st : LoopState) :
    List CycleInput → RunOutcome
  | [] => .running st []
  | c :: rest =>
    match c.fetch with
    | .error _ => .crashed .airtableError st []
    | .ok records =>
      match runCycleRecords fromiso post recipe st.last_checked_time records
          st.processed_records with
      | .error e => .crashed e st []
      | .ok (d, processed') =>
        let st' : LoopState :=
          { st with processed_records := processed',
                    last_execution_time := some st.last_checked_time }
        if c.stopRequested then
          .stopped st' [⟨d, false⟩]
        else
          match execute_recipe_loop fromiso post recipe st' rest with
          | .running s tr => .running s (⟨d, true⟩ :: tr)
          | .stopped s tr => .stopped s (⟨d, true⟩ :: tr)
          | .crashed e s tr => .crashed e s (⟨d, true⟩ :: tr)

/-- The watermark computed once at loop entry (lines 117-118):
`last_checked_time = recipe.last_execution_time or start_time`.  A stored
datetime is always truthy in Python, so `or` returns the persisted time
whenever one is present, else `start_time`. -/
def initialWatermark (recipe : Automation) (start_time : Int) : Int :=
  recipe.last_execution_time.getD start_time

/-- `execute_recipe` (lines 112-156): set up `last_checked_time` and the
empty `processed_records` set, then run the polling loop over the given
cycle inputs.  (`start_time` is the `datetime.utcnow()` of line 117; the
writes to `recipe.is_running` at lines 113/156 are covered by the
`Flags` model below.) -/
def execute_recipe (fromiso : String → Option Int)
    (post : Option String → Record → Except Unit Int)
    (recipe : Automation) (start_time : Int)
    (inputs : List CycleInput) : RunOutcome :=
  execute_recipe_loop fromiso post recipe
    { processed_records := [],
      last_checked_time := initialWatermark recipe start_time,
      last_execution_time := recipe.last_execution_time } inputs

/-- A log line emitted by `RecipeManager.start_all` (lines 171-182). -/
inductive LogEvent where
  /-- line 173: `All recipes are already running` (single aggregate line). -/
  | allAlreadyRunning
  /-- line 177: per-recipe `... is already running`. -/
  | alreadyRunning (name : Option String) (url : Option String)
  /-- line 182: per-recipe `... started` (after `thread.start()`). -/
  | started (name : Option String) (url : Option String)
deriving DecidableEq, Repr

/-- One recipe as managed by `RecipeManager`: the `Automation` object
with the two flags `add_recipe` attaches to it (lines 165-166). -/
structure ManagedRecipe where
  automation : Automation
  is_running : Bool
  is_thread_running : Bool
deriving DecidableEq, Repr

/-- The `for thread, recipe in zip(...)` body of `start_all`
(lines 175-182): a running recipe is only reported; an idle one has its
thread started and both flags set. -/
def start_all_loop : List ManagedRecipe → List LogEvent × List ManagedRecipe
  | [] => ([], [])
  | r :: rs =>
    let (logs, rs') := start_all_loop rs
    if r.is_running then
      (.alreadyRunning r.automation.name r.automation.webhook_url :: logs, r :: rs')
    else
      (.started r.automation.name r.automation.webhook_url :: logs,
        { r with is_running := true, is_thread_running := true } :: rs')

/-- `RecipeManager.start_all` (lines 171-182): if every managed recipe is
already running (vacuously true of an empty collection) emit the single
aggregate message and touch nothing; otherwise run the per-recipe loop. -/
def start_all (recipes : List ManagedRecipe) : List LogEvent × List ManagedRecipe :=
  if recipes.all (fun r => r.is_running) then
    ([.allAlreadyRunning], recipes)
  else
    start_all_loop recipes

/-- Characterization used to state the claims about `start_all`: the log
line the per-recipe loop produces for one recipe. -/
def reportOf (r : ManagedRecipe) : LogEvent :=
  if r.is_running then .alreadyRunning r.automation.name r.automation.webhook_url
  else .started r.automation.name r.automation.webhook_url

/-- Characterization used to state the claims about `start_all`: an idle
recipe is started (both flags set), a running one is left untouched. -/
def startIfIdle (r : ManagedRecipe) : ManagedRecipe :=
  if r.is_running then r
  else { r with is_running := true, is_thread_running := true }

/-- The two per-recipe boolean flags. -/
structure Flags where
  is_running : Bool
  is_thread_running : Bool
deriving DecidableEq, Repr

/-- Every write the program performs on a recipe's flags after the
recipe's thread has been started (the initializing writes of
`add_recipe`, which run before any start, are not operations on a
started runner). -/
inductive FlagOp where
  /-- line 113: `recipe.is_running = True` at loop entry. -/
  | loopEntry
  /-- line 156: `recipe.is_running = False` when the loop exits. -/
  | loopExit
  /-- a stop request: some thread sets `recipe.is_running = False`. -/
  | stopRequest
  /-- lines 180-181: `start_all` starting the thread sets both flags. -/
  | startThread
deriving DecidableEq, Repr

/-- Effect of one flag write. -/
def applyFlagOp : Flags → FlagOp → Flags
  | f, .loopEntry => { f with is_running := true }
  | f, .loopExit => { f with is_running := false }
  | f, .stopRequest => { f with is_running := false }
  | _, .startThread => { is_running := true, is_thread_running := true }

/-- `RecipeManager.log_status` (line 187): the label shown for a recipe
reads `is_thread_running`, not `is_running`. -/
def statusLabel (f : Flags) : String :=
  if f.is_thread_running then "running" else "stopped"

/-! ### Concrete collaborators and fixtures used by witnesses and
counterexamples -/

/-- A parse collaborator for runs whose records carry no timestamp. -/
def isoNone : String → Option Int := fun _ => none

/-- A parse collaborator mapping the literal timestamp `"T5"` to the
instant `5`. -/
def isoT5 : String → Option Int := fun s => if s = "T5" then some 5 else none

/-- A Notifier that always delivers, with status 200. -/
def postOk : Option String → Record → Except Unit Int := fun _ _ => .ok 200

/-- A Notifier whose every delivery raises. -/
def postDown : Option String → Record → Except Unit Int := fun _ _ => .error ()

/-- Scenario record `{id:"r1", fields:{Status:"URGENT review"}}`. -/
def r1 : Record := ⟨"r1", [("Status", .str "URGENT review")]⟩

/-- Scenario record `{id:"r2", fields:{Status:"done"}}`. -/
def r2 : Record := ⟨"r2", [("Status", .str "done")]⟩

/-- The §8 scenario recipe: trigger `find_record`, `field_name="Status"`,
`text_to_find="URGENT"`. -/
def statusRecipe : Automation :=
  { Automation.init (some "find_record") (some "send_webhook")
      (some "https://example.org/hook") (some "base") (some "tbl")
      (some "key") (some "Status") (some "URGENT") (some "urgent-watch")
    with last_execution_time := none }

/-- A recipe with the `airtable_record_updated` trigger. -/
def updatedRecipe : Automation :=
  Automation.init (some "airtable_record_updated") (some "send_webhook")
    (some "https://example.org/hook") (some "base") (some "tbl")
    (some "key") none none (some "watch-updates")

/-- A record carrying `Last Modified = "T5"`. -/
def u1 : Record := ⟨"u1", [("Last Modified", .str "T5")]⟩

/-- The §8 scenario cycle inputs: two identical fetches, a stop request
arriving during the second cycle. -/
def scenarioInputs : List CycleInput :=
  [⟨.ok [r1, r2], false⟩, ⟨.ok [r1, r2], true⟩]

/-! ### Helper lemmas -/

/-- The identifiers fetched in one cycle (empty when the fetch raised). -/
def cycleIds (c : CycleInput) : List String :=
  (c.fetch.toOption.getD []).map Record.id

/-- All record identifiers returned across a run's fetches, in order. -/
def fetchedIds : List CycleInput → List String
  | [] => []
  | c :: rest => cycleIds c ++ fetchedIds rest

theorem processRecord_skip (fromiso : String → Option Int)
    (post : Option String → Record → Except Unit Int)
    (recipe : Automation) (wm : Int) (p : List String) (r : Record)
    (h : r.id ∈ p) :
    processRecord fromiso post recipe wm p r = .ok ([], p) := by
  simp only [processRecord, if_pos h]

theorem processRecord_ok_processed (fromiso : String → Option Int)
    (post : Option String → Record → Except Unit Int)
    (recipe : Automation) (wm : Int) (p : List String) (r : Record)
    (d : List Record) (p' : List String)
    (h : processRecord fromiso post recipe wm p r = .ok (d, p')) :
    p' = p.insert r.id := by
  by_cases hm : r.id ∈ p
  · rw [processRecord_skip fromiso post recipe wm p r hm] at h
    cases h
    exact (List.insert_of_mem hm).symm
  · simp only [processRecord, if_neg hm] at h
    repeat' split at h
    all_goals cases h
    all_goals rfl

theorem runCycleRecords_ok_processed (fromiso : String → Option Int)
    (post : Option String → Record → Except Unit Int)
    (recipe : Automation) (wm : Int) :
    ∀ (rs : List Record) (p : List String) (d : List Record) (p' : List String),
    runCycleRecords fromiso post recipe wm rs p = .ok (d, p') →
    p' = (rs.map Record.id).foldl (fun acc i => acc.insert i) p := by
  intro rs
  induction rs with
  | nil =>
    intro p d p' h
    simp only [runCycleRecords] at h
    cases h
    rfl
  | cons r rs ih =>
    intro p d p' h
    simp only [runCycleRecords] at h
    cases hpr : processRecord fromiso post recipe wm p r with
    | error e => rw [hpr] at h; cases h
    | ok dp =>
      obtain ⟨d₁, p₁⟩ := dp
      simp only [hpr] at h
      cases hrc : runCycleRecords fromiso post recipe wm rs p₁ with
      | error e => simp only [hrc] at h; cases h
      | ok dp₂ =>
        obtain ⟨d₂, p₂⟩ := dp₂
        simp only [hrc] at h
        cases h
        have h₁ := processRecord_ok_processed fromiso post recipe wm p r d₁ p₁ hpr
        have h₂ := ih p₁ d₂ _ hrc
        simp only [List.map_cons, List.foldl_cons, h₂, ← h₁]

theorem foldl_insert_nodup (ids : List String) :
    ∀ p : List String, p.Nodup →
    (ids.foldl (fun acc i => acc.insert i) p).Nodup := by
  induction ids with
  | nil => intro p hp; exact hp
  | cons i ids ih =>
    intro p hp
    simpa using ih (p.insert i) (hp.insert)

theorem foldl_insert_toFinset (ids : List String) :
    ∀ p : List String,
    (ids.foldl (fun acc i => acc.insert i) p).toFinset = p.toFinset ∪ ids.toFinset := by
  induction ids with
  | nil => intro p; simp
  | cons i ids ih =>
    intro p
    simp only [List.foldl_cons, ih, List.toFinset_cons]
    ext a
    simp only [Finset.mem_union, Finset.mem_insert, List.mem_toFinset,
      List.mem_insert_iff]
    tauto

theorem execute_recipe_loop_running_processed (fromiso : String → Option Int)
    (post : Option String → Record → Except Unit Int) (recipe : Automation) :
    ∀ (inputs : List CycleInput) (st st' : LoopState) (tr : List CycleOutput),
    execute_recipe_loop fromiso post recipe st inputs = .running st' tr →
    st'.processed_records =
      (fetchedIds inputs).foldl (fun acc i => acc.insert i) st.processed_records := by
  intro inputs
  induction inputs with
  | nil =>
    intro st st' tr h
    simp only [execute_recipe_loop] at h
    cases h
    rfl
  | cons c rest ih =>
    intro st st' tr h
    simp only [execute_recipe_loop] at h
    cases hf : c.fetch with
    | error e => simp only [hf] at h; cases h
    | ok records =>
      simp only [hf] at h
      cases hrc : runCycleRecords fromiso post recipe st.last_checked_time records
          st.processed_records with
      | error e => simp only [hrc] at h; cases h
      | ok dp =>
        obtain ⟨d, p'⟩ := dp
        simp only [hrc] at h
        by_cases hs : c.stopRequested
        · simp only [hs, if_true] at h; cases h
        · simp only [hs, if_false, Bool.false_eq_true] at h
          cases hrec : execute_recipe_loop fromiso post recipe
              { st with processed_records := p',
                        last_execution_time := some st.last_checked_time } rest with
          | running s t =>
            simp only [hrec] at h
            cases h
            have h₂ := ih _ st' t hrec
            have h₁ := runCycleRecords_ok_processed fromiso post recipe
              st.last_checked_time records st.processed_records d p' hrc
            simp only [h₂, h₁, fetchedIds, cycleIds, hf, List.foldl_append,
              Except.toOption, Option.getD_some]
          | stopped s t => simp only [hrec] at h; cases h
          | crashed e s t => simp only [hrec] at h; cases h

theorem execute_recipe_loop_watermark_constant (fromiso : String → Option Int)
    (post : Option String → Record → Except Unit Int) (recipe : Automation) :
    ∀ (inputs : List CycleInput) (st : LoopState),
    (execute_recipe_loop fromiso post recipe st inputs).state.last_checked_time
      = st.last_checked_time := by
  intro inputs
  induction inputs with
  | nil => intro st; rfl
  | cons c rest ih =>
    intro st
    cases hf : c.fetch with
    | error e => simp only [execute_recipe_loop, hf, RunOutcome.state]
    | ok records =>
      cases hrc : runCycleRecords fromiso post recipe st.last_checked_time records
          st.processed_records with
      | error e => simp only [execute_recipe_loop, hf, hrc, RunOutcome.state]
      | ok dp =>
        obtain ⟨d, p'⟩ := dp
        by_cases hs : c.stopRequested
        · simp only [execute_recipe_loop, hf, hrc, hs, if_true, RunOutcome.state]
        · simp only [execute_recipe_loop, hf, hrc, hs, if_false, Bool.false_eq_true]
          have key := ih { st with processed_records := p',
                                   last_execution_time := some st.last_checked_time }
          cases hrec : execute_recipe_loop fromiso post recipe
              { st with processed_records := p',
                        last_execution_time := some st.last_checked_time } rest with
          | running s t =>
            simp only [hrec, RunOutcome.state] at key ⊢
            exact key
          | stopped s t =>
            simp only [hrec, RunOutcome.state] at key ⊢
            exact key
          | crashed e s t =>
            simp only [hrec, RunOutcome.state] at key ⊢
            exact key

theorem execute_recipe_loop_stopped_requested (fromiso : String → Option Int)
    (post : Option String → Record → Except Unit Int) (recipe : Automation) :
    ∀ (inputs : List CycleInput) (st st' : LoopState) (tr : List CycleOutput),
    execute_recipe_loop fromiso post recipe st inputs = .stopped st' tr →
    ∃ c ∈ inputs, c.stopRequested = true := by
  intro inputs
  induction inputs with
  | nil => intro st st' tr h; cases h
  | cons c rest ih =>
    intro st st' tr h
    simp only [execute_recipe_loop] at h
    cases hf : c.fetch with
    | error e => simp only [hf] at h; cases h
    | ok records =>
      simp only [hf] at h
      cases hrc : runCycleRecords fromiso post recipe st.last_checked_time records
          st.processed_records with
      | error e => simp only [hrc] at h; cases h
      | ok dp =>
        obtain ⟨d, p'⟩ := dp
        simp only [hrc] at h
        by_cases hs : c.stopRequested
        · exact ⟨c, List.mem_cons_self c rest, hs⟩
        · simp only [hs, if_false, Bool.false_eq_true] at h
          cases hrec : execute_recipe_loop fromiso post recipe
              { st with processed_records := p',
                        last_execution_time := some st.last_checked_time } rest with
          | running s t => simp only [hrec] at h; cases h
          | stopped s t =>
            obtain ⟨c', hc', hreq⟩ := ih _ s t hrec
            exact ⟨c', List.mem_cons_of_mem c hc', hreq⟩
          | crashed e s t => simp only [hrec] at h; cases h

theorem start_all_loop_eq :
    ∀ rs : List ManagedRecipe,
    start_all_loop rs = (rs.map reportOf, rs.map startIfIdle) := by
  intro rs
  induction rs with
  | nil => rfl
  | cons r rs ih =>
    simp only [start_all_loop, ih, List.map_cons]
    by_cases hr : r.is_running
    · simp only [hr, if_true, reportOf, startIfIdle]
    · simp only [hr, if_false, Bool.false_eq_true, reportOf, startIfIdle]

/-! ### Claim theorems -/

/-- C1 (refuted by the code; the spec states the intended behavior): in the
§8 scenario — recipe with trigger `find_record`, `field_name="Status"`,
`text_to_find="URGENT"`, fetch returning
`[{id:"r1", fields:{Status:"URGENT review"}}, {id:"r2", fields:{Status:"done"}}]`
twice — the run dispatches NOTHING: zero dispatches in cycle 1 and zero in
cycle 2, not the claimed single dispatch for `r1` in cycle 1.  The
`elif recipe.trigger == "find_record"` branch (line 143) is nested inside
`if record_time_str:` (line 135), so the text trigger is unreachable for a
record without a truthy `Last Modified` field, although `r1` satisfies
every condition of the claimed iff (third conjunct). -/
theorem c1_scenario_dispatches_nothing :
    (execute_recipe isoNone postOk statusRecipe 0 scenarioInputs).dispatchTrace
      = [[], []] ∧
    execute_recipe isoNone postOk statusRecipe 0 scenarioInputs
      = .stopped ⟨["r2", "r1"], 0, some 0⟩ [⟨[], true⟩, ⟨[], false⟩] ∧
    (statusRecipe.trigger = some "find_record" ∧
      fieldNameInFields statusRecipe.field_name r1.fields = true ∧
      "URGENT".toList <:+: "URGENT review".toList ∧
      getField r1.fields "Last Modified" = none) := by
  refine ⟨by decide, by decide, by decide, by decide, by decide, by decide⟩

/-- C4 (counterexample): a recipe whose persisted execution time `0` is
earlier than the loop-start time `10` gets watermark `0` — the persisted
time (Python `or` keeps the first truthy operand) — not the claimed
`max 0 10 = 10` ("the later of the two" / "the watermark equals
loop-start"). -/
theorem c4_counterexample_earlier_persisted_wins :
    (execute_recipe isoT5 postOk
        { updatedRecipe with last_execution_time := some 0 } 10 []).state.last_checked_time
      = 0 ∧
    max (0 : Int) 10 = 10 ∧
    (execute_recipe isoT5 postOk
        { updatedRecipe with last_execution_time := some 0 } 10 []).state.last_checked_time
      ≠ max (0 : Int) 10 := by
  refine ⟨rfl, by decide, by decide⟩

/-- C4 (amended): the watermark (`last_checked_time`) is set exactly once,
at loop start, to the previously persisted execution time when one is
present and otherwise to the loop-start time — not to the later of the
two — and it is never changed for the remainder of the run: however the
run ends (still running, stopped, or crashed), the final state's
watermark equals that initial value. -/
theorem c4_watermark_set_once_never_advanced (fromiso : String → Option Int)
    (post : Option String → Record → Except Unit Int) (recipe : Automation)
    (start_time : Int) (inputs : List CycleInput) :
    (execute_recipe fromiso post recipe start_time inputs).state.last_checked_time
      = recipe.last_execution_time.getD start_time := by
  unfold execute_recipe initialWatermark
  exact execute_recipe_loop_watermark_constant fromiso post recipe inputs _

/-- C7: a stop requested during cycle K is observed only at the cycle-end
check (line 152): the cycle still fetches, evaluates every record of the
snapshot via `runCycleRecords`, dispatches every firing notification
(the full dispatch list `d`), and writes `last_execution_time`; the loop
then breaks — the remaining cycle inputs are never consumed and the
final cycle's output has `slept = false` (the `time.sleep(10)` at
line 154 is skipped). -/
theorem c7_stop_completes_cycle (fromiso : String → Option Int)
    (post : Option String → Record → Except Unit Int) (recipe : Automation)
    (st : LoopState) (c : CycleInput) (rest : List CycleInput)
    (records : List Record) (d : List Record) (p' : List String)
    (hstop : c.stopRequested = true)
    (hfetch : c.fetch = .ok records)
    (hcycle : runCycleRecords fromiso post recipe st.last_checked_time records
      st.processed_records = .ok (d, p')) :
    execute_recipe_loop fromiso post recipe st (c :: rest) =
      .stopped { st with processed_records := p',
                         last_execution_time := some st.last_checked_time }
        [⟨d, false⟩] := by
  simp only [execute_recipe_loop, hfetch, hcycle, hstop, if_true]

/-- Witness for C7: stopping during the first cycle of an
`airtable_record_updated` run over `[u1]` completes that cycle —
dispatching `u1` — and stops without touching the second cycle input. -/
theorem c7_stop_completes_cycle_witness :
    execute_recipe_loop isoT5 postOk updatedRecipe ⟨[], 0, none⟩
      [⟨.ok [u1], true⟩, ⟨.ok [u1], false⟩]
      = .stopped ⟨["u1"], 0, some 0⟩ [⟨[u1], false⟩] :=
  c7_stop_completes_cycle isoT5 postOk updatedRecipe ⟨[], 0, none⟩
    ⟨.ok [u1], true⟩ [⟨.ok [u1], false⟩] [u1] [u1] ["u1"] rfl rfl rfl

/-- C9: once a recipe's thread has been started (`start_all` sets
`is_thread_running = True`, lines 180-181), no later flag write — the
loop-entry write at line 113, the loop-exit write at line 156 that marks
the recipe stopped, a stop request, or another start — ever clears
`is_thread_running`; `log_status` (line 187) reads exactly that flag, so
the recipe is labeled "running" forever, even after it stopped. -/
theorem c9_status_running_forever (f : Flags) (ops : List FlagOp) :
    (ops.foldl applyFlagOp (applyFlagOp f .startThread)).is_thread_running = true ∧
    statusLabel (ops.foldl applyFlagOp (applyFlagOp f .startThread)) = "running" := by
  have key : ∀ (ops : List FlagOp) (g : Flags), g.is_thread_running = true →
      (ops.foldl applyFlagOp g).is_thread_running = true := by
    intro ops
    induction ops with
    | nil => intro g hg; exact hg
    | cons op ops ih =>
      intro g hg
      cases op <;> exact ih _ (by simp [applyFlagOp, hg])
  have h1 : (applyFlagOp f .startThread).is_thread_running = true := rfl
  refine ⟨key ops (applyFlagOp f .startThread) h1, ?_⟩
  simp [statusLabel, key ops (applyFlagOp f .startThread) h1]

/-- C10: with zero managed recipes, `all(...)` over the empty collection
is `True`, so `start_all` emits the single aggregate
"All recipes are already running" message, starts nothing, and leaves
the (empty) collection unchanged. -/
theorem c10_empty_manager_aggregate_message :
    start_all [] = ([LogEvent.allAlreadyRunning], []) := by
  rfl

/-- C8: `start_all` starts exactly the runners not currently running —
the resulting collection is the pointwise `startIfIdle` image, which
starts (sets both flags of) every idle recipe and leaves every running
recipe untouched (not restarted) — and logs per recipe via `reportOf`,
reporting each already-running recipe as already running; when every
managed recipe is already running it instead emits the single aggregate
"All recipes are already running" message and changes nothing. -/
theorem c8_start_all_exactly_idle (rs : List ManagedRecipe) :
    ((∀ r ∈ rs, r.is_running = true) →
      start_all rs = ([LogEvent.allAlreadyRunning], rs)) ∧
    ((∃ r ∈ rs, r.is_running = false) →
      (start_all rs).1 = rs.map reportOf ∧
      (start_all rs).2 = rs.map startIfIdle) := by
  constructor
  · intro h
    have hall : rs.all (fun r => r.is_running) = true := by
      rw [List.all_eq_true]
      intro r hr
      exact h r hr
    simp only [start_all, hall, if_true]
  · rintro ⟨r, hr, hfalse⟩
    have hall : rs.all (fun r => r.is_running) = false := by
      rcases hb : rs.all (fun r => r.is_running) with _ | _
      · rfl
      · rw [List.all_eq_true] at hb
        rw [hb r hr] at hfalse
        cases hfalse
    simp only [start_all, hall, if_false, Bool.false_eq_true, start_all_loop_eq]
    exact ⟨trivial, trivial⟩

/-- Witness for C8: a two-recipe manager with one running and one idle
recipe takes the per-recipe branch: the running recipe is reported as
already running and untouched, the idle one is started. -/
theorem c8_start_all_exactly_idle_witness :
    (start_all [⟨statusRecipe, true, true⟩, ⟨updatedRecipe, false, false⟩]).1
      = [⟨statusRecipe, true, true⟩, ⟨updatedRecipe, false, false⟩].map reportOf ∧
    (start_all [⟨statusRecipe, true, true⟩, ⟨updatedRecipe, false, false⟩]).2
      = [⟨statusRecipe, true, true⟩, ⟨updatedRecipe, false, false⟩].map startIfIdle :=
  (c8_start_all_exactly_idle
      [⟨statusRecipe, true, true⟩, ⟨updatedRecipe, false, false⟩]).2
    ⟨⟨updatedRecipe, false, false⟩, by simp, rfl⟩

/-- C3 (counterexample): constructing an `Automation` with the unknown
trigger tag "bogus" does not fail — `__init__` (lines 29-39) stores it
unchecked, there is no `ConfigurationError` anywhere in the program —
and evaluation IS reached with the unknown trigger: processing a record
under it returns normally (dispatching nothing). -/
theorem c3_counterexample_bogus_trigger_accepted :
    (Automation.init (some "bogus") (some "send_webhook")
        (some "https://example.org/hook") (some "base") (some "tbl")
        (some "key") none none (some "bogus-recipe")).trigger = some "bogus" ∧
    processRecord isoT5 postOk
      (Automation.init (some "bogus") (some "send_webhook")
        (some "https://example.org/hook") (some "base") (some "tbl")
        (some "key") none none (some "bogus-recipe")) 0 [] u1
      = .ok ([], ["u1"]) := by
  exact ⟨rfl, rfl⟩

/-- C3 (amended): `Automation.__init__` performs no validation: every
trigger tag is accepted at construction time and no error is raised
then.  A recipe whose trigger is neither "airtable_record_updated" nor
"find_record" reaches evaluation, where it simply never fires: whenever
processing a record under it returns normally, the dispatch list is
empty. -/
theorem c3_unknown_trigger_never_dispatches (fromiso : String → Option Int)
    (post : Option String → Record → Except Unit Int) (recipe : Automation)
    (wm : Int) (p : List String) (r : Record) (d : List Record) (p' : List String)
    (h1 : recipe.trigger ≠ some "airtable_record_updated")
    (h2 : recipe.trigger ≠ some "find_record")
    (hok : processRecord fromiso post recipe wm p r = .ok (d, p')) :
    d = [] := by
  by_cases hm : r.id ∈ p
  · rw [processRecord_skip fromiso post recipe wm p r hm] at hok
    cases hok
    rfl
  · simp only [processRecord, if_neg hm] at hok
    repeat' split at hok
    all_goals first
      | (cases hok; rfl)
      | (exfalso; simp_all)

/-- Witness for C3's amended theorem, at the concrete unknown tag
"bogus": processing `u1` under the bogus recipe completes normally and
dispatches nothing. -/
theorem c3_unknown_trigger_never_dispatches_witness :
    (Automation.init (some "bogus") (some "send_webhook")
        (some "https://example.org/hook") (some "base") (some "tbl")
        (some "key") none none (some "bogus-recipe")).trigger
      ≠ some "airtable_record_updated" ∧
    (Automation.init (some "bogus") (some "send_webhook")
        (some "https://example.org/hook") (some "base") (some "tbl")
        (some "key") none none (some "bogus-recipe")).trigger
      ≠ some "find_record" ∧
    ([] : List Record) = [] :=
  ⟨by decide, by decide,
    c3_unknown_trigger_never_dispatches isoT5 postOk
      (Automation.init (some "bogus") (some "send_webhook")
        (some "https://example.org/hook") (some "base") (some "tbl")
        (some "key") none none (some "bogus-recipe")) 0 [] u1 [] ["u1"]
      (by decide) (by decide) rfl⟩

/-- C2 (counterexample): a run of the §8 recipe whose only cycle's fetch
raises.  The loop does not log, skip the cycle, sleep and retry: it
terminates at once — the run crashes with the propagated exception —
although no stop was requested (the single cycle input carries
`stopRequested = false`). -/
theorem c2_counterexample_fetch_failure_kills_loop :
    execute_recipe isoNone postOk statusRecipe 0 [⟨.error (), false⟩]
      = .crashed .airtableError ⟨[], 0, none⟩ [] ∧
    (⟨.error (), false⟩ : CycleInput).stopRequested = false := by
  exact ⟨rfl, rfl⟩

/-- C2 (amended): errors are NOT recovered; they terminate the poll
loop.  (i) A cycle whose fetch raises crashes the run at once.  (ii) A
cycle in which record processing raises — a delivery failure included —
crashes the run, abandoning the remaining records.  (iii) A record
completes with a dispatch only when its delivery succeeded, so a failed
delivery never yields a dispatched record: it raises instead.  (iv) The
loop reaches `stopped` only when some cycle input carried a stop
request — an explicit stop is the only graceful exit. -/
theorem c2_errors_terminate_loop (fromiso : String → Option Int)
    (post : Option String → Record → Except Unit Int) (recipe : Automation)
    (st : LoopState) (c : CycleInput) (rest : List CycleInput) :
    (c.fetch = .error () →
      execute_recipe_loop fromiso post recipe st (c :: rest)
        = .crashed .airtableError st []) ∧
    (∀ records e, c.fetch = .ok records →
      runCycleRecords fromiso post recipe st.last_checked_time records
        st.processed_records = .error e →
      execute_recipe_loop fromiso post recipe st (c :: rest)
        = .crashed e st []) ∧
    (∀ wm p r d p', post recipe.webhook_url r = .error () →
      processRecord fromiso post recipe wm p r = .ok (d, p') → d = []) ∧
    (∀ inputs st' tr,
      execute_recipe_loop fromiso post recipe st inputs = .stopped st' tr →
      ∃ cin ∈ inputs, cin.stopRequested = true) := by
  refine ⟨?_, ?_, ?_, ?_⟩
  · intro hf
    simp only [execute_recipe_loop, hf]
  · intro records e hf hrc
    simp only [execute_recipe_loop, hf, hrc]
  · intro wm p r d p' hpost hok
    by_cases hm : r.id ∈ p
    · rw [processRecord_skip fromiso post recipe wm p r hm] at hok
      cases hok
      rfl
    · simp only [processRecord, if_neg hm] at hok
      repeat' split at hok
      all_goals first
        | (cases hok; rfl)
        | (exfalso; simp_all)
  · intro inputs st' tr h
    exact execute_recipe_loop_stopped_requested fromiso post recipe inputs st st' tr h

/-- Witness for C2's amended theorem: the concrete fetch-failure run of
the counterexample, obtained through part (i), and a delivery-failure
evaluation of `u1` through part (iii) shown by its crash. -/
theorem c2_errors_terminate_loop_witness :
    execute_recipe_loop isoNone postOk statusRecipe ⟨[], 0, none⟩
      [⟨.error (), false⟩]
      = .crashed .airtableError ⟨[], 0, none⟩ [] :=
  (c2_errors_terminate_loop isoNone postOk statusRecipe ⟨[], 0, none⟩
    ⟨.error (), false⟩ []).1 rfl

/-- C5: dedup invariant.  For a run started with an empty seen set that
completes all N supplied cycles (outcome still `running`, i.e. no stop
and no crash), the final `processed_records` is duplicate-free and its
underlying set is exactly the set of record identifiers returned across
all N fetches, so `len(seen)` equals the number of distinct identifiers
ever returned; moreover a record whose identifier is already seen is
skipped without evaluation or any state change (last conjunct). -/
theorem c5_seen_equals_distinct_fetched_ids (fromiso : String → Option Int)
    (post : Option String → Record → Except Unit Int) (recipe : Automation)
    (start_time : Int) (inputs : List CycleInput) (st : LoopState)
    (tr : List CycleOutput)
    (h : execute_recipe fromiso post recipe start_time inputs = .running st tr) :
    st.processed_records.Nodup ∧
    st.processed_records.toFinset = (fetchedIds inputs).toFinset ∧
    st.processed_records.length = (fetchedIds inputs).toFinset.card ∧
    (∀ (p : List String) (r : Record), r.id ∈ p →
      processRecord fromiso post recipe st.last_checked_time p r = .ok ([], p)) := by
  have hproc := execute_recipe_loop_running_processed fromiso post recipe inputs
    { processed_records := [],
      last_checked_time := initialWatermark recipe start_time,
      last_execution_time := recipe.last_execution_time } st tr h
  simp only at hproc
  have hnodup : st.processed_records.Nodup := by
    rw [hproc]
    exact foldl_insert_nodup (fetchedIds inputs) [] List.nodup_nil
  have htf : st.processed_records.toFinset = (fetchedIds inputs).toFinset := by
    rw [hproc, foldl_insert_toFinset]
    simp
  refine ⟨hnodup, htf, ?_, ?_⟩
  · rw [← htf, List.toFinset_card_of_nodup hnodup]
  · intro p r hr
    exact processRecord_skip fromiso post recipe st.last_checked_time p r hr

/-- Witness for C5: one completed cycle fetching `[r1, r2]` from an
empty seen set yields a duplicate-free seen set of length equal to the
number of distinct fetched identifiers (2). -/
theorem c5_seen_equals_distinct_fetched_ids_witness :
    (⟨["r2", "r1"], 0, some 0⟩ : LoopState).processed_records.Nodup ∧
    (⟨["r2", "r1"], 0, some 0⟩ : LoopState).processed_records.length
      = (fetchedIds [⟨.ok [r1, r2], false⟩]).toFinset.card :=
  ⟨(c5_seen_equals_distinct_fetched_ids isoNone postOk statusRecipe 0
      [⟨.ok [r1, r2], false⟩] ⟨["r2", "r1"], 0, some 0⟩ [⟨[], true⟩] rfl).1,
   (c5_seen_equals_distinct_fetched_ids isoNone postOk statusRecipe 0
      [⟨.ok [r1, r2], false⟩] ⟨["r2", "r1"], 0, some 0⟩ [⟨[], true⟩] rfl).2.2.1⟩

/-- C6: under the `airtable_record_updated` trigger, evaluating a
not-yet-seen record that completes normally dispatches iff the record
carries a `Last Modified` value that is a nonempty (truthy) string whose
parsed, offset-naive instant is strictly greater than the watermark; in
particular a record without a `Last Modified` field never dispatches,
whatever the watermark (second conjunct). -/
theorem c6_record_updated_fires_iff (fromiso : String → Option Int)
    (post : Option String → Record → Except Unit Int) (recipe : Automation)
    (wm : Int) (p : List String) (r : Record) (d : List Record) (p' : List String)
    (htrig : recipe.trigger = some "airtable_record_updated")
    (hunseen : r.id ∉ p)
    (hok : processRecord fromiso post recipe wm p r = .ok (d, p')) :
    (d ≠ [] ↔ ∃ s t, getField r.fields "Last Modified" = some (.str s) ∧
      s ≠ "" ∧ fromiso s = some t ∧ t > wm) ∧
    (getField r.fields "Last Modified" = none → d = []) := by
  simp only [processRecord, if_neg hunseen] at hok
  cases hlm : getField r.fields "Last Modified" with
  | none =>
    simp only [hlm] at hok
    cases hok
    exact ⟨by simp [hlm], fun _ => rfl⟩
  | some v =>
    cases v with
    | num n =>
      simp only [hlm] at hok
      by_cases hn : n = 0
      · rw [if_pos hn] at hok
        cases hok
        exact ⟨by simp [hlm], fun _ => rfl⟩
      · rw [if_neg hn] at hok
        cases hok
    | str s =>
      simp only [hlm] at hok
      by_cases hse : s = ""
      · rw [if_pos hse] at hok
        cases hok
        subst hse
        exact ⟨by simp [hlm], fun _ => rfl⟩
      · rw [if_neg hse] at hok
        cases hfi : fromiso s with
        | none => simp only [hfi] at hok; cases hok
        | some rt =>
          simp only [hfi] at hok
          by_cases hcmp : rt > wm
          · rw [if_pos ⟨htrig, hcmp⟩] at hok
            cases hpost : post recipe.webhook_url r with
            | error u => simp only [hpost] at hok; cases hok
            | ok code =>
              simp only [hpost] at hok
              cases hok
              constructor
              · constructor
                · intro _
                  exact ⟨s, rt, rfl, hse, hfi, hcmp⟩
                · intro _
                  simp
              · intro hnone
                simp at hnone
          · have hcond : ¬(recipe.trigger = some "airtable_record_updated" ∧
                rt > wm) := fun hc => hcmp hc.2
            rw [if_neg hcond] at hok
            have hcond2 : ¬(recipe.trigger = some "find_record" ∧
                fieldNameInFields recipe.field_name r.fields = true) := by
              rintro ⟨hft, -⟩
              rw [htrig] at hft
              simp at hft
            rw [if_neg hcond2] at hok
            cases hok
            constructor
            · apply iff_of_false
              · simp
              · rintro ⟨s', t', hg, hne, hf', hgt⟩
                simp only [Option.some.injEq, Value.str.injEq] at hg
                subst hg
                rw [hfi] at hf'
                simp only [Option.some.injEq] at hf'
                subst hf'
                exact hcmp hgt
            · intro _
              rfl

/-- Witness for C6: the record `u1` with `Last Modified = "T5"`
(parsing to instant 5) against watermark 0, fetched unseen: the
evaluation dispatched `[u1]`, and the iff's right side is realized by
`s = "T5", t = 5`. -/
theorem c6_record_updated_fires_iff_witness :
    (([u1] : List Record) ≠ [] ↔ ∃ s t,
      getField u1.fields "Last Modified" = some (.str s) ∧ s ≠ "" ∧
      isoT5 s = some t ∧ t > (0 : Int)) ∧
    (getField u1.fields "Last Modified" = none → ([u1] : List Record) = []) :=
  c6_record_updated_fires_iff isoT5 postOk updatedRecipe 0 [] u1 [u1] ["u1"]
    rfl (by decide) rfl
